import Mathlib

/-!
Shallow embedding of `src/lib/i386-ports.c` (pciutils): direct PCI
configuration access through i386 I/O ports, with the two legacy
mechanisms (conf1 / conf2), the shared permission gate and the bus-0
sanity check.

Modelling choices:
* Port traffic is an explicit trace of `PortEvent`s.  `intel_outb/outw/outl`
  become `outb/outw/outl` events whose value is reduced modulo the port
  width (the C parameter types are `u8/u16/u32`); `intel_inb/inw/inl`
  become `inb/inw/inl` events, and the value such a read returns is
  supplied by an oracle argument, reduced modulo the width of the read.
  `intel_io_lock` / `intel_io_unlock` become `lock` / `unlock` events.
* Caller buffers (`byte *buf`) are `List Nat` of bytes in memory order.
  The C code stores `cpu_to_le16 (inw ...)` through a host-order `u16`
  store, which writes exactly the little-endian bytes of the port value
  into the buffer on every host; symmetrically `le16_to_cpu` of a
  host-order load reads the buffer as a little-endian number.  Both are
  embedded host-independently as `natToBytes` / `bytesToNat`.
* The functions are pure: a read returns its filled buffer, a write takes
  the buffer, and the process-wide permission flag becomes an explicit
  `GateState` threaded through `conf12_setup_io` / `conf12_cleanup`,
  together with counters of the calls into the external platform
  primitives `intel_setup_io` / `intel_cleanup_io`.
-/

namespace PciPorts

/-- One operation on the machine I/O ports, as issued by the driver. -/
inductive PortEvent where
  | outb (val port : Nat)
  | outw (val port : Nat)
  | outl (val port : Nat)
  | inb (port : Nat)
  | inw (port : Nat)
  | inl (port : Nat)
  | lock
  | unlock
deriving DecidableEq

/-- The port an event addresses (`none` for lock/unlock). -/
def eventPort : PortEvent → Option Nat
  | .outb _ p => some p
  | .outw _ p => some p
  | .outl _ p => some p
  | .inb p => some p
  | .inw p => some p
  | .inl p => some p
  | .lock => none
  | .unlock => none

/-- The value carried by an output event (`none` otherwise). -/
def eventValue : PortEvent → Option Nat
  | .outb v _ => some v
  | .outw v _ => some v
  | .outl v _ => some v
  | _ => none

/-- Device locator, the used fields of C's `struct pci_dev`. -/
structure pci_dev where
  domain : Nat
  bus : Nat
  dev : Nat
  func : Nat
deriving DecidableEq

/-- Little-endian value of a byte buffer; each entry is reduced mod 256,
embedding the C `byte` type. -/
def bytesToNat : List Nat → Nat
  | [] => 0
  | b :: bs => b % 256 + 256 * bytesToNat bs

/-- The `n` little-endian bytes of a value, as stored into a byte buffer. -/
def natToBytes : Nat → Nat → List Nat
  | 0, _ => []
  | n + 1, v => v % 256 :: natToBytes n (v / 256)

/-- Modelled from the spec: `PCI_DEVFN` of `lib/pci.h` is not under `src/`;
the spec's Type-1 address codec `(device << 11) | (function << 8)` gives
devfn = `(device << 3) | function`. -/
def PCI_DEVFN (dev func : Nat) : Nat := (dev <<< 3) ||| func

/-- Modelled from the spec: the fixed configuration-space offset of the
16-bit vendor identifier (`PCI_VENDOR_ID` of `lib/pci.h`, not under `src/`). -/
def PCI_VENDOR_ID : Nat := 0x00

/-- Modelled from the spec: the fixed configuration-space offset of the
16-bit class code (`PCI_CLASS_DEVICE` of `lib/pci.h`, not under `src/`). -/
def PCI_CLASS_DEVICE : Nat := 0x0a

/-- Modelled from the spec: the host-bridge class code. -/
def PCI_CLASS_BRIDGE_HOST : Nat := 0x0600

/-- Modelled from the spec: the VGA display class code. -/
def PCI_CLASS_DISPLAY_VGA : Nat := 0x0300

/-- Modelled from the spec: the Intel vendor identifier `0x8086`. -/
def PCI_VENDOR_ID_INTEL : Nat := 0x8086

/-- Modelled from the spec: the Compaq vendor identifier. -/
def PCI_VENDOR_ID_COMPAQ : Nat := 0x0e11

/-- Outcome of a configuration-space read.  `unsupported` is the C
`return 0` taken before any port traffic: it carries no trace and leaves
the caller's buffer untouched.  `fallback` is the delegation
`pci_generic_block_read` for widths outside {1,2,4} (external code). -/
inductive ReadResult where
  | unsupported
  | fallback
  | ok (buf : List Nat) (trace : List PortEvent)
deriving DecidableEq

/-- Outcome of a configuration-space write, as `ReadResult`. -/
inductive WriteResult where
  | unsupported
  | fallback
  | ok (trace : List PortEvent)
deriving DecidableEq

/-- The Type-1 address written to port 0xCF8, exactly the expression of
`conf1_read`/`conf1_write`:
`0x80000000 | ((bus & 0xff) << 16) | (PCI_DEVFN(dev, func) << 8) | (pos & ~3)`,
reduced mod 2^32 (`intel_outl` takes a `u32`). -/
def conf1_addr (d : pci_dev) (pos : Nat) : Nat :=
  (0x80000000 ||| ((d.bus &&& 0xff) <<< 16) ||| (PCI_DEVFN d.dev d.func <<< 8) |||
    (pos &&& 0xfffffffc)) % 0x100000000

/-- The `CONFIG_CMD` macro of the source (line 106):
`0x80000000 | (bus << 16) | (device_fn << 8) | (where & ~3)`. -/
def CONFIG_CMD (bus device_fn pos : Nat) : Nat :=
  0x80000000 ||| (bus <<< 16) ||| (device_fn <<< 8) ||| (pos &&& 0xfffffffc)

/-- C `conf1_read`: `ρ port` is the value the hardware returns for the
sized read at `port` (reduced to the width of the read). -/
def conf1_read (d : pci_dev) (pos len : Nat) (ρ : Nat → Nat) : ReadResult :=
  let addr := 0xcfc + (pos &&& 3)
  if d.domain ≠ 0 ∨ 256 ≤ pos then .unsupported
  else if len ≠ 1 ∧ len ≠ 2 ∧ len ≠ 4 then .fallback
  else
    let pre := [PortEvent.lock, PortEvent.outl (conf1_addr d pos) 0xcf8]
    if len = 1 then .ok (natToBytes 1 (ρ addr % 0x100)) (pre ++ [PortEvent.inb addr, PortEvent.unlock])
    else if len = 2 then .ok (natToBytes 2 (ρ addr % 0x10000)) (pre ++ [PortEvent.inw addr, PortEvent.unlock])
    else .ok (natToBytes 4 (ρ addr % 0x100000000)) (pre ++ [PortEvent.inl addr, PortEvent.unlock])

/-- C `conf1_write`. -/
def conf1_write (d : pci_dev) (pos : Nat) (buf : List Nat) (len : Nat) : WriteResult :=
  let addr := 0xcfc + (pos &&& 3)
  if d.domain ≠ 0 ∨ 256 ≤ pos then .unsupported
  else if len ≠ 1 ∧ len ≠ 2 ∧ len ≠ 4 then .fallback
  else
    let pre := [PortEvent.lock, PortEvent.outl (conf1_addr d pos) 0xcf8]
    if len = 1 then .ok (pre ++ [PortEvent.outb (bytesToNat (buf.take 1)) addr, PortEvent.unlock])
    else if len = 2 then .ok (pre ++ [PortEvent.outw (bytesToNat (buf.take 2)) addr, PortEvent.unlock])
    else .ok (pre ++ [PortEvent.outl (bytesToNat (buf.take 4)) addr, PortEvent.unlock])

/-- C `conf2_read`. -/
def conf2_read (d : pci_dev) (pos len : Nat) (ρ : Nat → Nat) : ReadResult :=
  let addr := 0xc000 ||| (d.dev <<< 8) ||| pos
  if d.domain ≠ 0 ∨ 256 ≤ pos then .unsupported
  else if 16 ≤ d.dev then .unsupported
  else if len ≠ 1 ∧ len ≠ 2 ∧ len ≠ 4 then .fallback
  else
    let pre := [PortEvent.lock, PortEvent.outb (((d.func <<< 1) ||| 0xf0) % 0x100) 0xcf8,
      PortEvent.outb (d.bus % 0x100) 0xcfa]
    let post := [PortEvent.outb 0 0xcf8, PortEvent.unlock]
    if len = 1 then .ok (natToBytes 1 (ρ addr % 0x100)) (pre ++ [PortEvent.inb addr] ++ post)
    else if len = 2 then .ok (natToBytes 2 (ρ addr % 0x10000)) (pre ++ [PortEvent.inw addr] ++ post)
    else .ok (natToBytes 4 (ρ addr % 0x100000000)) (pre ++ [PortEvent.inl addr] ++ post)

/-- C `conf2_write`. -/
def conf2_write (d : pci_dev) (pos : Nat) (buf : List Nat) (len : Nat) : WriteResult :=
  let addr := 0xc000 ||| (d.dev <<< 8) ||| pos
  if d.domain ≠ 0 ∨ 256 ≤ pos then .unsupported
  else if 16 ≤ d.dev then .unsupported
  else if len ≠ 1 ∧ len ≠ 2 ∧ len ≠ 4 then .fallback
  else
    let pre := [PortEvent.lock, PortEvent.outb (((d.func <<< 1) ||| 0xf0) % 0x100) 0xcf8,
      PortEvent.outb (d.bus % 0x100) 0xcfa]
    let post := [PortEvent.outb 0 0xcf8, PortEvent.unlock]
    if len = 1 then .ok (pre ++ [PortEvent.outb (bytesToNat (buf.take 1)) addr] ++ post)
    else if len = 2 then .ok (pre ++ [PortEvent.outw (bytesToNat (buf.take 2)) addr] ++ post)
    else .ok (pre ++ [PortEvent.outl (bytesToNat (buf.take 4)) addr] ++ post)

/-- The process-wide permission state: `conf12_io_enabled` is C's static
flag (-1 = haven't tried, 0 = failed, 1 = succeeded); the counters record
the calls into the external `intel_setup_io` / `intel_cleanup_io`
primitives. -/
structure GateState where
  conf12_io_enabled : Int
  setup_calls : Nat
  release_calls : Nat
deriving DecidableEq

/-- C `conf12_setup_io`: `r` is the result the external `intel_setup_io`
would return (0 = denied, 1 = granted) were it called. -/
def conf12_setup_io (r : Int) (s : GateState) : Int × GateState :=
  if s.conf12_io_enabled < 0 then
    (r, { conf12_io_enabled := r, setup_calls := s.setup_calls + 1,
          release_calls := s.release_calls })
  else (s.conf12_io_enabled, s)

/-- C `conf12_cleanup`: release the privilege and reset to untried, but
only when the flag records a successful acquisition. -/
def conf12_cleanup (s : GateState) : GateState :=
  if 0 < s.conf12_io_enabled then
    { conf12_io_enabled := -1, setup_calls := s.setup_calls,
      release_calls := s.release_calls + 1 }
  else s

/-- One probed slot of C `intel_sanity_check`'s loop body: the class read
and its comparison (against little-endian encoded constants, which in the
byte model is comparison of the little-endian value of the two filled
bytes), short-circuited with the vendor read and its comparison.
`read dev pos len` abstracts `m->read` on bus 0 / function 0: `some bs`
means the read succeeded filling bytes `bs`. -/
def slot_matches (read : Nat → Nat → Nat → Option (List Nat)) (dev : Nat) : Bool :=
  (match read dev PCI_CLASS_DEVICE 2 with
   | some cb => bytesToNat cb == PCI_CLASS_BRIDGE_HOST || bytesToNat cb == PCI_CLASS_DISPLAY_VGA
   | none => false) ||
  (match read dev PCI_VENDOR_ID 2 with
   | some vb => bytesToNat vb == PCI_VENDOR_ID_INTEL || bytesToNat vb == PCI_VENDOR_ID_COMPAQ
   | none => false)

/-- C `intel_sanity_check`: scan devices 0..31 on bus 0, function 0,
domain 0, sane as soon as one slot matches. -/
def intel_sanity_check (read : Nat → Nat → Nat → Option (List Nat)) : Bool :=
  (List.range 32).any (slot_matches read)

/-- C `conf1_detect`.  `r` feeds `conf12_setup_io`; `tmp` and `rb` are the
values the two `intel_inl (0xCF8)` reads return (the saved address-register
value and the sentinel readback); `sread` feeds the sanity check, whose own
port traffic goes through the abstract `m->read` and is not part of this
trace.  Returns (result, gate state, port trace). -/
def conf1_detect (r : Int) (s : GateState) (tmp rb : Nat)
    (sread : Nat → Nat → Nat → Option (List Nat)) :
    Bool × GateState × List PortEvent :=
  let es := conf12_setup_io r s
  if es.1 = 0 then (false, es.2, [])
  else
    ((rb % 0x100000000 == 0x80000000) && intel_sanity_check sread, es.2,
     [PortEvent.lock, PortEvent.outb 0x01 0xcfb, PortEvent.inl 0xcf8,
      PortEvent.outl 0x80000000 0xcf8, PortEvent.inl 0xcf8,
      PortEvent.outl (tmp % 0x100000000) 0xcf8, PortEvent.unlock])

/-- C `conf2_detect`.  `v8` and `va` are the values the `intel_inb` reads
of ports 0xCF8 and 0xCFA return; the second read only happens when the
first one came back zero (C's short-circuit `&&`). -/
def conf2_detect (r : Int) (s : GateState) (v8 va : Nat)
    (sread : Nat → Nat → Nat → Option (List Nat)) :
    Bool × GateState × List PortEvent :=
  let es := conf12_setup_io r s
  if es.1 = 0 then (false, es.2, [])
  else
    let firstZero := v8 % 0x100 == 0
    ((if firstZero && (va % 0x100 == 0) then intel_sanity_check sread else false), es.2,
     [PortEvent.lock, PortEvent.outb 0x00 0xcfb, PortEvent.outb 0x00 0xcf8,
      PortEvent.outb 0x00 0xcfa, PortEvent.inb 0xcf8] ++
     (if firstZero then [PortEvent.inb 0xcfa] else []) ++ [PortEvent.unlock])

/-- A trace that is one critical section: empty, or `lock`, then port
operations only, then the matching `unlock`. -/
def criticalSectionOnly (tr : List PortEvent) : Prop :=
  tr = [] ∨ ∃ mid, tr = PortEvent.lock :: (mid ++ [PortEvent.unlock]) ∧
    ∀ e ∈ mid, e ≠ PortEvent.lock ∧ e ≠ PortEvent.unlock

theorem lor_eq_add_of (k a b c : Nat) (ha : a = 2 ^ k * c) (hb : b < 2 ^ k) :
    a ||| b = a + b := by
  subst ha
  exact (Nat.mul_add_lt_is_or hb c).symm

theorem conf1_addr_split (d : pci_dev) (pos : Nat) (hb : d.bus < 256)
    (hd : d.dev < 32) (hf : d.func < 8) (hp : pos < 256) :
    conf1_addr d pos =
      0x80000000 + d.bus * 65536 + d.dev * 2048 + d.func * 256 + (pos &&& 0xfffffffc) := by
  have hC : pos &&& 0xfffffffc < 256 := lt_of_le_of_lt Nat.and_le_left hp
  have hbm : (d.bus &&& 0xff) <<< 16 = d.bus * 65536 := by
    have h := Nat.and_pow_two_sub_one_eq_mod d.bus 8
    norm_num at h
    rw [h, Nat.mod_eq_of_lt hb, Nat.shiftLeft_eq]
  have hdf : PCI_DEVFN d.dev d.func <<< 8 = d.dev * 2048 + d.func * 256 := by
    have h0 : PCI_DEVFN d.dev d.func = d.dev * 8 + d.func := by
      unfold PCI_DEVFN
      rw [Nat.shiftLeft_eq,
        lor_eq_add_of 3 (d.dev * 2 ^ 3) d.func d.dev (by ring)
          (lt_of_lt_of_le hf (by norm_num))]
    rw [h0, Nat.shiftLeft_eq]
    ring
  have h1 : (0x80000000 : Nat) ||| d.bus * 65536 = 0x80000000 + d.bus * 65536 :=
    lor_eq_add_of 24 _ _ 128 (by norm_num) (by norm_num; omega)
  have h2 : (0x80000000 + d.bus * 65536) ||| (d.dev * 2048 + d.func * 256) =
      0x80000000 + d.bus * 65536 + (d.dev * 2048 + d.func * 256) :=
    lor_eq_add_of 16 _ _ (32768 + d.bus) (by ring) (by norm_num; omega)
  have h3 : (0x80000000 + d.bus * 65536 + (d.dev * 2048 + d.func * 256)) |||
      (pos &&& 0xfffffffc) =
      0x80000000 + d.bus * 65536 + (d.dev * 2048 + d.func * 256) + (pos &&& 0xfffffffc) :=
    lor_eq_add_of 8 _ _ (8388608 + d.bus * 256 + (d.dev * 8 + d.func)) (by ring)
      (lt_of_lt_of_le hC (by norm_num))
  have hlt : 0x80000000 + d.bus * 65536 + (d.dev * 2048 + d.func * 256) +
      (pos &&& 0xfffffffc) < 0x100000000 := by omega
  unfold conf1_addr
  rw [hbm, hdf, h1, h2, h3, Nat.mod_eq_of_lt hlt]
  ring

theorem claim_cmd_split (bus dev func pos : Nat) (hb : bus < 256)
    (hd : dev < 32) (hf : func < 8) (hp : pos < 256) :
    0x80000000 ||| (bus <<< 16) ||| (dev <<< 11) ||| (func <<< 8) ||| (pos &&& 0xfffffffc) =
      0x80000000 + bus * 65536 + dev * 2048 + func * 256 + (pos &&& 0xfffffffc) := by
  have hC : pos &&& 0xfffffffc < 256 := lt_of_le_of_lt Nat.and_le_left hp
  have e16 : bus <<< 16 = bus * 65536 := by rw [Nat.shiftLeft_eq]
  have e11 : dev <<< 11 = dev * 2048 := by rw [Nat.shiftLeft_eq]
  have e8 : func <<< 8 = func * 256 := by rw [Nat.shiftLeft_eq]
  have h1 : (0x80000000 : Nat) ||| bus * 65536 = 0x80000000 + bus * 65536 :=
    lor_eq_add_of 24 _ _ 128 (by norm_num) (by norm_num; omega)
  have h2 : (0x80000000 + bus * 65536) ||| dev * 2048 =
      0x80000000 + bus * 65536 + dev * 2048 :=
    lor_eq_add_of 16 _ _ (32768 + bus) (by ring) (by norm_num; omega)
  have h3 : (0x80000000 + bus * 65536 + dev * 2048) ||| func * 256 =
      0x80000000 + bus * 65536 + dev * 2048 + func * 256 :=
    lor_eq_add_of 11 _ _ (1048576 + bus * 32 + dev) (by ring) (by norm_num; omega)
  have h4 : (0x80000000 + bus * 65536 + dev * 2048 + func * 256) ||| (pos &&& 0xfffffffc) =
      0x80000000 + bus * 65536 + dev * 2048 + func * 256 + (pos &&& 0xfffffffc) :=
    lor_eq_add_of 8 _ _ (8388608 + bus * 256 + dev * 8 + func) (by ring)
      (lt_of_lt_of_le hC (by norm_num))
  rw [e16, e11, e8, h1, h2, h3, h4]

/-- C1: for every Type-1 read or write with domain 0, offset in [0,256) and
length in {1,2,4}, the value written to address port 0xCF8 is the 32-bit
quantity `0x80000000 | (bus << 16) | (device << 11) | (function << 8) |
(offset & ~3)`, and the paired data transfer addresses data port
`0xCFC + (offset & 3)`: the two low offset bits select the byte lane. -/
theorem conf1_rw_address_and_lane (bus dev func pos len : Nat) (buf : List Nat)
    (ρ : Nat → Nat) (hb : bus < 256) (hd : dev < 32) (hf : func < 8)
    (hp : pos < 256) (hl : len = 1 ∨ len = 2 ∨ len = 4) :
    ∃ ev ev' rbuf,
      conf1_read ⟨0, bus, dev, func⟩ pos len ρ = .ok rbuf
        [PortEvent.lock,
         PortEvent.outl
           (0x80000000 ||| (bus <<< 16) ||| (dev <<< 11) ||| (func <<< 8) |||
             (pos &&& 0xfffffffc)) 0xcf8,
         ev, PortEvent.unlock] ∧
      conf1_write ⟨0, bus, dev, func⟩ pos buf len = .ok
        [PortEvent.lock,
         PortEvent.outl
           (0x80000000 ||| (bus <<< 16) ||| (dev <<< 11) ||| (func <<< 8) |||
             (pos &&& 0xfffffffc)) 0xcf8,
         ev', PortEvent.unlock] ∧
      (0x80000000 ||| (bus <<< 16) ||| (dev <<< 11) ||| (func <<< 8) |||
        (pos &&& 0xfffffffc)) < 0x100000000 ∧
      eventPort ev = some (0xcfc + (pos &&& 3)) ∧
      eventPort ev' = some (0xcfc + (pos &&& 3)) := by
  have hcmd : conf1_addr ⟨0, bus, dev, func⟩ pos =
      0x80000000 ||| (bus <<< 16) ||| (dev <<< 11) ||| (func <<< 8) |||
        (pos &&& 0xfffffffc) := by
    rw [conf1_addr_split ⟨0, bus, dev, func⟩ pos hb hd hf hp,
      claim_cmd_split bus dev func pos hb hd hf hp]
  have hC : pos &&& 0xfffffffc < 256 := lt_of_le_of_lt Nat.and_le_left hp
  have hlt : (0x80000000 ||| (bus <<< 16) ||| (dev <<< 11) ||| (func <<< 8) |||
      (pos &&& 0xfffffffc)) < 0x100000000 := by
    rw [claim_cmd_split bus dev func pos hb hd hf hp]
    omega
  have hnp : ¬ (256 ≤ pos) := by omega
  rcases hl with rfl | rfl | rfl
  · refine ⟨PortEvent.inb (0xcfc + (pos &&& 3)),
      PortEvent.outb (bytesToNat (buf.take 1)) (0xcfc + (pos &&& 3)),
      natToBytes 1 (ρ (0xcfc + (pos &&& 3)) % 0x100), ?_, ?_, hlt, rfl, rfl⟩ <;>
      (rw [← hcmd]; simp [conf1_read, conf1_write, hnp])
  · refine ⟨PortEvent.inw (0xcfc + (pos &&& 3)),
      PortEvent.outw (bytesToNat (buf.take 2)) (0xcfc + (pos &&& 3)),
      natToBytes 2 (ρ (0xcfc + (pos &&& 3)) % 0x10000), ?_, ?_, hlt, rfl, rfl⟩ <;>
      (rw [← hcmd]; simp [conf1_read, conf1_write, hnp])
  · refine ⟨PortEvent.inl (0xcfc + (pos &&& 3)),
      PortEvent.outl (bytesToNat (buf.take 4)) (0xcfc + (pos &&& 3)),
      natToBytes 4 (ρ (0xcfc + (pos &&& 3)) % 0x100000000), ?_, ?_, hlt, rfl, rfl⟩ <;>
      (rw [← hcmd]; simp [conf1_read, conf1_write, hnp])

theorem conf1_rw_address_and_lane_witness :
    ∃ rbuf tr, conf1_read ⟨0, 0, 0, 0⟩ 17 2 (fun _ => 43981) = ReadResult.ok rbuf tr := by
  obtain ⟨ev, ev', rbuf, hr, -, -, -, -⟩ :=
    conf1_rw_address_and_lane 0 0 0 17 2 [] (fun _ => 43981)
      (by decide) (by decide) (by decide) (by decide) (Or.inr (Or.inl rfl))
  exact ⟨_, _, hr⟩

/-- C2: a read or write of either mechanism with domain ≠ 0 or offset ≥ 256,
or (Type 2 only) device ≥ 16, returns the unsupported result (C's `return 0`),
which carries no port traffic and leaves the buffer untouched. -/
theorem rw_reject_unsupported (d : pci_dev) (pos len : Nat) (buf : List Nat)
    (ρ : Nat → Nat) :
    (d.domain ≠ 0 ∨ 256 ≤ pos →
      conf1_read d pos len ρ = .unsupported ∧
      conf1_write d pos buf len = .unsupported ∧
      conf2_read d pos len ρ = .unsupported ∧
      conf2_write d pos buf len = .unsupported) ∧
    (16 ≤ d.dev →
      conf2_read d pos len ρ = .unsupported ∧
      conf2_write d pos buf len = .unsupported) := by
  constructor
  · intro h
    refine ⟨?_, ?_, ?_, ?_⟩ <;>
      (first
        | (simp only [conf1_read]; rw [if_pos h])
        | (simp only [conf1_write]; rw [if_pos h])
        | (simp only [conf2_read]; rw [if_pos h])
        | (simp only [conf2_write]; rw [if_pos h]))
  · intro h16
    by_cases hc : d.domain ≠ 0 ∨ 256 ≤ pos
    · refine ⟨?_, ?_⟩ <;>
        (first
          | (simp only [conf2_read]; rw [if_pos hc])
          | (simp only [conf2_write]; rw [if_pos hc]))
    · refine ⟨?_, ?_⟩ <;>
        (first
          | (simp only [conf2_read]; rw [if_neg hc, if_pos h16])
          | (simp only [conf2_write]; rw [if_neg hc, if_pos h16]))

theorem rw_reject_unsupported_witness :
    conf1_read ⟨1, 0, 0, 0⟩ 0 4 (fun _ => 0) = ReadResult.unsupported ∧
    conf1_write ⟨0, 0, 0, 0⟩ 256 [0] 1 = WriteResult.unsupported ∧
    conf2_write ⟨0, 0, 16, 0⟩ 0 [0] 1 = WriteResult.unsupported :=
  ⟨((rw_reject_unsupported ⟨1, 0, 0, 0⟩ 0 4 [0] (fun _ => 0)).1 (by decide)).1,
   ((rw_reject_unsupported ⟨0, 0, 0, 0⟩ 256 1 [0] (fun _ => 0)).1 (by decide)).2.1,
   ((rw_reject_unsupported ⟨0, 0, 16, 0⟩ 0 1 [0] (fun _ => 0)).2 (by decide)).2⟩

/-- C8 is false on the code: the Type-1 codec at bus 0, device 0,
function 0, offset 0x10 yields 0x80000010, not 0x80000000 (the low two
bits of 0x10 are already zero, so `offset & ~3 = 0x10` survives into the
address). -/
theorem config_cmd_claim_false :
    CONFIG_CMD 0 (PCI_DEVFN 0 0) 0x10 = 0x80000010 ∧
    ¬ CONFIG_CMD 0 (PCI_DEVFN 0 0) 0x10 = 0x80000000 := by decide

/-- C8 (amended): `encode(bus=0, device=0, function=0, offset=0x10)` equals
0x80000010, and encode with bus = 1 (other fields equal) sets bit 16 of the
result; shown both for the `CONFIG_CMD` macro and for the inline codec
`conf1_addr` that `conf1_read`/`conf1_write` actually use. -/
theorem config_cmd_values :
    CONFIG_CMD 0 (PCI_DEVFN 0 0) 0x10 = 0x80000010 ∧
    Nat.testBit (CONFIG_CMD 1 (PCI_DEVFN 0 0) 0x10) 16 = true ∧
    conf1_addr ⟨0, 0, 0, 0⟩ 0x10 = 0x80000010 ∧
    Nat.testBit (conf1_addr ⟨0, 1, 0, 0⟩ 0x10) 16 = true := by decide

/-- C3: a Type-2 transfer with domain 0, offset < 256, device < 16 and
length in {1,2,4} emits exactly: window open (`(function << 1) | 0xF0` to
command register 0xCF8, bus to bus-select register 0xCFA), the sized
transfer at `0xC000 | (device << 8) | offset`, and window close (0 back to
0xCF8); device = 16 is rejected with no port traffic. -/
theorem conf2_sequence (bus dev func pos len : Nat) (buf : List Nat)
    (ρ : Nat → Nat) (hb : bus < 256) (hd : dev < 16) (hf : func < 8)
    (hp : pos < 256) (hl : len = 1 ∨ len = 2 ∨ len = 4) :
    ∃ ev ev' rbuf,
      conf2_read ⟨0, bus, dev, func⟩ pos len ρ = .ok rbuf
        [PortEvent.lock, PortEvent.outb ((func <<< 1) ||| 0xf0) 0xcf8,
         PortEvent.outb bus 0xcfa, ev, PortEvent.outb 0 0xcf8, PortEvent.unlock] ∧
      conf2_write ⟨0, bus, dev, func⟩ pos buf len = .ok
        [PortEvent.lock, PortEvent.outb ((func <<< 1) ||| 0xf0) 0xcf8,
         PortEvent.outb bus 0xcfa, ev', PortEvent.outb 0 0xcf8, PortEvent.unlock] ∧
      eventPort ev = some (0xc000 ||| (dev <<< 8) ||| pos) ∧
      eventPort ev' = some (0xc000 ||| (dev <<< 8) ||| pos) ∧
      conf2_read ⟨0, bus, 16, func⟩ pos len ρ = .unsupported ∧
      conf2_write ⟨0, bus, 16, func⟩ pos buf len = .unsupported := by
  have hfv : (func <<< 1) ||| 0xf0 < 256 := by
    apply Nat.or_lt_two_pow (n := 8)
    · rw [Nat.shiftLeft_eq]
      omega
    · norm_num
  have e1 : ((func <<< 1) ||| 0xf0) % 0x100 = (func <<< 1) ||| 0xf0 :=
    Nat.mod_eq_of_lt hfv
  have e2 : bus % 0x100 = bus := Nat.mod_eq_of_lt hb
  have hnp : ¬ (256 ≤ pos) := by omega
  have hnd : ¬ (16 ≤ dev) := by omega
  have h16r : conf2_read ⟨0, bus, 16, func⟩ pos len ρ = .unsupported := by
    simp only [conf2_read]
    rw [if_neg (by simp; omega), if_pos (by simp)]
  have h16w : conf2_write ⟨0, bus, 16, func⟩ pos buf len = .unsupported := by
    simp only [conf2_write]
    rw [if_neg (by simp; omega), if_pos (by simp)]
  rcases hl with rfl | rfl | rfl
  · exact ⟨PortEvent.inb (0xc000 ||| (dev <<< 8) ||| pos),
      PortEvent.outb (bytesToNat (buf.take 1)) (0xc000 ||| (dev <<< 8) ||| pos),
      natToBytes 1 (ρ (0xc000 ||| (dev <<< 8) ||| pos) % 0x100),
      by simp [conf2_read, hnp, hnd, e1, e2],
      by simp [conf2_write, hnp, hnd, e1, e2], rfl, rfl, h16r, h16w⟩
  · exact ⟨PortEvent.inw (0xc000 ||| (dev <<< 8) ||| pos),
      PortEvent.outw (bytesToNat (buf.take 2)) (0xc000 ||| (dev <<< 8) ||| pos),
      natToBytes 2 (ρ (0xc000 ||| (dev <<< 8) ||| pos) % 0x10000),
      by simp [conf2_read, hnp, hnd, e1, e2],
      by simp [conf2_write, hnp, hnd, e1, e2], rfl, rfl, h16r, h16w⟩
  · exact ⟨PortEvent.inl (0xc000 ||| (dev <<< 8) ||| pos),
      PortEvent.outl (bytesToNat (buf.take 4)) (0xc000 ||| (dev <<< 8) ||| pos),
      natToBytes 4 (ρ (0xc000 ||| (dev <<< 8) ||| pos) % 0x100000000),
      by simp [conf2_read, hnp, hnd, e1, e2],
      by simp [conf2_write, hnp, hnd, e1, e2], rfl, rfl, h16r, h16w⟩

theorem conf2_sequence_witness :
    ∃ rbuf tr, conf2_read ⟨0, 0, 15, 0⟩ 4 1 (fun _ => 171) = ReadResult.ok rbuf tr := by
  obtain ⟨ev, ev', rbuf, hr, -, -, -, -, -⟩ :=
    conf2_sequence 0 15 0 4 1 [0] (fun _ => 171)
      (by decide) (by decide) (by decide) (by decide) (Or.inl rfl)
  exact ⟨_, _, hr⟩

/-- C5: `conf12_setup_io` is memoized: from the untried state (-1) it
invokes the underlying `intel_setup_io` exactly once (the call counter
rises by one) and records its result; from any granted-or-denied state
(flag ≥ 0) every further call returns the recorded flag with no state
change and no further underlying call, whichever mechanism makes it. -/
theorem conf12_setup_io_memoized (s : GateState) (r r' : Int) (hr : 0 ≤ r)
    (hs : s.conf12_io_enabled = -1) :
    conf12_setup_io r s =
      (r, { conf12_io_enabled := r, setup_calls := s.setup_calls + 1,
            release_calls := s.release_calls }) ∧
    (∀ s' : GateState, 0 ≤ s'.conf12_io_enabled →
      conf12_setup_io r' s' = (s'.conf12_io_enabled, s')) ∧
    conf12_setup_io r' (conf12_setup_io r s).2 = (r, (conf12_setup_io r s).2) := by
  have h1 : conf12_setup_io r s =
      (r, { conf12_io_enabled := r, setup_calls := s.setup_calls + 1,
            release_calls := s.release_calls }) := by
    simp [conf12_setup_io, hs]
  refine ⟨h1, fun s' h' => ?_, ?_⟩
  · simp [conf12_setup_io, not_lt.2 h']
  · rw [h1]
    simp [conf12_setup_io, not_lt.2 hr]

theorem conf12_setup_io_memoized_witness :
    conf12_setup_io 1 ⟨-1, 0, 0⟩ = (1, ⟨1, 1, 0⟩) ∧
    conf12_setup_io 0 ⟨1, 1, 0⟩ = (1, ⟨1, 1, 0⟩) := by
  obtain ⟨h1, h2, -⟩ :=
    conf12_setup_io_memoized ⟨-1, 0, 0⟩ 1 0 (by decide) (by decide)
  exact ⟨h1, h2 ⟨1, 1, 0⟩ (by decide)⟩

/-- C6: `conf12_cleanup` releases the privilege (one `intel_cleanup_io`
call) and resets the flag to untried only from the granted state; from
denied (0) or untried (-1) it changes nothing, so denied is never reset;
and after a cleanup that followed a successful acquisition, the next
`conf12_setup_io` performs the underlying acquisition again. -/
theorem conf12_cleanup_spec (s : GateState) (r : Int) :
    (0 < s.conf12_io_enabled →
      conf12_cleanup s =
        { conf12_io_enabled := -1, setup_calls := s.setup_calls,
          release_calls := s.release_calls + 1 } ∧
      conf12_setup_io r (conf12_cleanup s) =
        (r, { conf12_io_enabled := r, setup_calls := s.setup_calls + 1,
              release_calls := s.release_calls + 1 })) ∧
    (s.conf12_io_enabled ≤ 0 → conf12_cleanup s = s) := by
  constructor
  · intro h
    have h1 : conf12_cleanup s =
        { conf12_io_enabled := -1, setup_calls := s.setup_calls,
          release_calls := s.release_calls + 1 } := by
      simp [conf12_cleanup, h]
    refine ⟨h1, ?_⟩
    rw [h1]
    simp [conf12_setup_io]
  · intro h
    simp [conf12_cleanup, not_lt.2 h]

theorem conf12_cleanup_spec_witness :
    conf12_cleanup ⟨1, 1, 0⟩ = ⟨-1, 1, 1⟩ ∧
    conf12_setup_io 1 (conf12_cleanup ⟨1, 1, 0⟩) = (1, ⟨1, 2, 1⟩) ∧
    conf12_cleanup ⟨0, 1, 0⟩ = ⟨0, 1, 0⟩ := by
  obtain ⟨ha, hb⟩ := (conf12_cleanup_spec ⟨1, 1, 0⟩ 1).1 (by decide)
  exact ⟨ha, hb, (conf12_cleanup_spec ⟨0, 1, 0⟩ 1).2 (by decide)⟩

/-- Simulated bus for the sanity check: slot 0 / function 0 reports vendor
identifier 0x8086 (little-endian bytes 0x86, 0x80); every other probe
returns 0xFFFF. -/
def readIntel0 : Nat → Nat → Nat → Option (List Nat) := fun dev pos _ =>
  if dev = 0 ∧ pos = PCI_VENDOR_ID then some [0x86, 0x80] else some [0xff, 0xff]

/-- Simulated bus where all 32 slots report 0xFFFF for every probe. -/
def readAllFF : Nat → Nat → Nat → Option (List Nat) := fun _ _ _ =>
  some [0xff, 0xff]

/-- C4: the sanity check scans device indices 0..31 (bus 0, function 0,
domain 0) and is sane exactly when some slot below 32 matches: a
successful 16-bit class read equal (in little-endian byte order) to host
bridge or VGA display, or a successful 16-bit vendor read equal to Intel
(0x8086) or Compaq; it is sane when slot 0 reports vendor 0x8086 and
insane when all 32 slots report 0xFFFF. -/
theorem intel_sanity_check_spec :
    (∀ read : Nat → Nat → Nat → Option (List Nat),
      (intel_sanity_check read = true ↔
        ∃ dev, dev < 32 ∧ slot_matches read dev = true) ∧
      ∀ dev : Nat, slot_matches read dev = true ↔
        ((∃ cb, read dev PCI_CLASS_DEVICE 2 = some cb ∧
            (bytesToNat cb = PCI_CLASS_BRIDGE_HOST ∨
             bytesToNat cb = PCI_CLASS_DISPLAY_VGA)) ∨
         (∃ vb, read dev PCI_VENDOR_ID 2 = some vb ∧
            (bytesToNat vb = PCI_VENDOR_ID_INTEL ∨
             bytesToNat vb = PCI_VENDOR_ID_COMPAQ)))) ∧
    intel_sanity_check readIntel0 = true ∧
    intel_sanity_check readAllFF = false := by
  refine ⟨fun read => ⟨?_, fun dev => ?_⟩, by decide, by decide⟩
  · simp [intel_sanity_check, List.any_eq_true, List.mem_range]
  · unfold slot_matches
    rcases hc : read dev PCI_CLASS_DEVICE 2 with - | cb <;>
      rcases hv : read dev PCI_VENDOR_ID 2 with - | vb <;>
        simp [hc, hv, PCI_CLASS_BRIDGE_HOST, PCI_CLASS_DISPLAY_VGA,
          PCI_VENDOR_ID_INTEL, PCI_VENDOR_ID_COMPAQ]

theorem intel_sanity_check_spec_witness :
    intel_sanity_check readIntel0 = true ∧ intel_sanity_check readAllFF = false :=
  ⟨intel_sanity_check_spec.2.1, intel_sanity_check_spec.2.2⟩

/-- C7: with the permission gate granted, Type-1 detect emits exactly:
lock, reset byte 0x01 to control register 0xCFB, a read of address
register 0xCF8 (the save), sentinel 0x80000000 to 0xCF8, the readback of
0xCF8, the restore of the saved value to 0xCF8 (in every case, whatever
the readback was), unlock; and it reports presence exactly when the
readback equals the sentinel and the sanity check confirms. -/
theorem conf1_detect_spec (r : Int) (s : GateState) (tmp rb : Nat)
    (sread : Nat → Nat → Nat → Option (List Nat))
    (hs : s.conf12_io_enabled = 1) :
    (conf1_detect r s tmp rb sread).2.2 =
      [PortEvent.lock, PortEvent.outb 0x01 0xcfb, PortEvent.inl 0xcf8,
       PortEvent.outl 0x80000000 0xcf8, PortEvent.inl 0xcf8,
       PortEvent.outl (tmp % 0x100000000) 0xcf8, PortEvent.unlock] ∧
    ((conf1_detect r s tmp rb sread).1 = true ↔
      rb % 0x100000000 = 0x80000000 ∧ intel_sanity_check sread = true) ∧
    (conf1_detect r s tmp rb sread).2.1 = s := by
  have hsu : conf12_setup_io r s = (1, s) := by
    simp [conf12_setup_io, hs]
  refine ⟨?_, ?_, ?_⟩ <;> simp [conf1_detect, hsu, Bool.and_eq_true]

theorem conf1_detect_spec_witness :
    (conf1_detect 1 ⟨1, 1, 0⟩ 305419896 2147483648 readIntel0).1 = true := by
  obtain ⟨-, h2, -⟩ :=
    conf1_detect_spec 1 ⟨1, 1, 0⟩ 305419896 2147483648 readIntel0 rfl
  exact h2.2 ⟨by decide, by decide⟩

theorem bytesToNat_lt (bs : List Nat) : bytesToNat bs < 256 ^ bs.length := by
  induction bs with
  | nil => simp [bytesToNat]
  | cons b bs ih =>
    simp only [bytesToNat, List.length_cons, pow_succ]
    have hb : b % 256 < 256 := Nat.mod_lt _ (by norm_num)
    omega

theorem natToBytes_bytesToNat (bs : List Nat) (h : ∀ b ∈ bs, b < 256) :
    natToBytes bs.length (bytesToNat bs) = bs := by
  induction bs with
  | nil => rfl
  | cons b bs ih =>
    have hb : b < 256 := h b (by simp)
    simp only [List.length_cons, natToBytes, bytesToNat]
    congr 1
    · omega
    · have hd : (b % 256 + 256 * bytesToNat bs) / 256 = bytesToNat bs := by omega
      rw [hd]
      exact ih fun x hx => h x (by simp [hx])

/-- C9: the host-order value 0x1234 written at width 2 goes on the wire as
the 16-bit port datum 0x1234, whose bus byte order is low byte 0x34 first,
then 0x12; reading that same datum back fills the buffer with bytes
0x34, 0x12, i.e. host value 0x1234.  In general, for both mechanisms and
every offset < 256 and width in {1,2,4}, a write followed by a read that
returns the written wire value yields exactly the bytes written. -/
theorem endianness_roundtrip :
    (conf1_write ⟨0, 0, 0, 0⟩ 0 [0x34, 0x12] 2 = .ok
        [PortEvent.lock, PortEvent.outl 0x80000000 0xcf8,
         PortEvent.outw 0x1234 0xcfc, PortEvent.unlock] ∧
      0x1234 % 256 = 0x34 ∧ 0x1234 / 256 % 256 = 0x12 ∧
      conf1_read ⟨0, 0, 0, 0⟩ 0 2 (fun _ => 0x1234) = .ok [0x34, 0x12]
        [PortEvent.lock, PortEvent.outl 0x80000000 0xcf8,
         PortEvent.inw 0xcfc, PortEvent.unlock]) ∧
    (∀ (d : pci_dev) (pos len : Nat) (buf : List Nat),
      d.domain = 0 → pos < 256 → len = 1 ∨ len = 2 ∨ len = 4 →
      buf.length = len → (∀ b ∈ buf, b < 256) →
      ∃ cmd ev ev',
        conf1_write d pos buf len = .ok
          [PortEvent.lock, PortEvent.outl cmd 0xcf8, ev, PortEvent.unlock] ∧
        eventValue ev = some (bytesToNat buf) ∧
        conf1_read d pos len (fun _ => bytesToNat buf) = .ok buf
          [PortEvent.lock, PortEvent.outl cmd 0xcf8, ev', PortEvent.unlock]) ∧
    (∀ (d : pci_dev) (pos len : Nat) (buf : List Nat),
      d.domain = 0 → pos < 256 → d.dev < 16 → len = 1 ∨ len = 2 ∨ len = 4 →
      buf.length = len → (∀ b ∈ buf, b < 256) →
      ∃ c1 c2 ev ev',
        conf2_write d pos buf len = .ok
          [PortEvent.lock, PortEvent.outb c1 0xcf8, PortEvent.outb c2 0xcfa,
           ev, PortEvent.outb 0 0xcf8, PortEvent.unlock] ∧
        eventValue ev = some (bytesToNat buf) ∧
        conf2_read d pos len (fun _ => bytesToNat buf) = .ok buf
          [PortEvent.lock, PortEvent.outb c1 0xcf8, PortEvent.outb c2 0xcfa,
           ev', PortEvent.outb 0 0xcf8, PortEvent.unlock]) := by
  refine ⟨by decide, ?_, ?_⟩
  · intro d pos len buf hdom hp hl hlen hb
    have hnp : ¬ (256 ≤ pos) := by omega
    have ht : buf.take len = buf := by
      rw [← hlen]
      exact List.take_length buf
    have hvlt := bytesToNat_lt buf
    rw [hlen] at hvlt
    have hrt := natToBytes_bytesToNat buf hb
    rw [hlen] at hrt
    rcases hl with rfl | rfl | rfl
    · have hmod : bytesToNat buf % 0x100 = bytesToNat buf :=
        Nat.mod_eq_of_lt (by norm_num at hvlt ⊢; omega)
      exact ⟨conf1_addr d pos, PortEvent.outb (bytesToNat buf) (0xcfc + (pos &&& 3)),
        PortEvent.inb (0xcfc + (pos &&& 3)),
        by simp [conf1_write, hdom, hnp, ht], rfl,
        by simp [conf1_read, hdom, hnp, hmod, hrt]⟩
    · have hmod : bytesToNat buf % 0x10000 = bytesToNat buf :=
        Nat.mod_eq_of_lt (by norm_num at hvlt ⊢; omega)
      exact ⟨conf1_addr d pos, PortEvent.outw (bytesToNat buf) (0xcfc + (pos &&& 3)),
        PortEvent.inw (0xcfc + (pos &&& 3)),
        by simp [conf1_write, hdom, hnp, ht], rfl,
        by simp [conf1_read, hdom, hnp, hmod, hrt]⟩
    · have hmod : bytesToNat buf % 0x100000000 = bytesToNat buf :=
        Nat.mod_eq_of_lt (by norm_num at hvlt ⊢; omega)
      exact ⟨conf1_addr d pos, PortEvent.outl (bytesToNat buf) (0xcfc + (pos &&& 3)),
        PortEvent.inl (0xcfc + (pos &&& 3)),
        by simp [conf1_write, hdom, hnp, ht], rfl,
        by simp [conf1_read, hdom, hnp, hmod, hrt]⟩
  · intro d pos len buf hdom hp hdev hl hlen hb
    have hnp : ¬ (256 ≤ pos) := by omega
    have hnd : ¬ (16 ≤ d.dev) := by omega
    have ht : buf.take len = buf := by
      rw [← hlen]
      exact List.take_length buf
    have hvlt := bytesToNat_lt buf
    rw [hlen] at hvlt
    have hrt := natToBytes_bytesToNat buf hb
    rw [hlen] at hrt
    rcases hl with rfl | rfl | rfl
    · have hmod : bytesToNat buf % 0x100 = bytesToNat buf :=
        Nat.mod_eq_of_lt (by norm_num at hvlt ⊢; omega)
      exact ⟨((d.func <<< 1) ||| 0xf0) % 0x100, d.bus % 0x100,
        PortEvent.outb (bytesToNat buf) (0xc000 ||| (d.dev <<< 8) ||| pos),
        PortEvent.inb (0xc000 ||| (d.dev <<< 8) ||| pos),
        by simp [conf2_write, hdom, hnp, hnd, ht], rfl,
        by simp [conf2_read, hdom, hnp, hnd, hmod, hrt]⟩
    · have hmod : bytesToNat buf % 0x10000 = bytesToNat buf :=
        Nat.mod_eq_of_lt (by norm_num at hvlt ⊢; omega)
      exact ⟨((d.func <<< 1) ||| 0xf0) % 0x100, d.bus % 0x100,
        PortEvent.outw (bytesToNat buf) (0xc000 ||| (d.dev <<< 8) ||| pos),
        PortEvent.inw (0xc000 ||| (d.dev <<< 8) ||| pos),
        by simp [conf2_write, hdom, hnp, hnd, ht], rfl,
        by simp [conf2_read, hdom, hnp, hnd, hmod, hrt]⟩
    · have hmod : bytesToNat buf % 0x100000000 = bytesToNat buf :=
        Nat.mod_eq_of_lt (by norm_num at hvlt ⊢; omega)
      exact ⟨((d.func <<< 1) ||| 0xf0) % 0x100, d.bus % 0x100,
        PortEvent.outl (bytesToNat buf) (0xc000 ||| (d.dev <<< 8) ||| pos),
        PortEvent.inl (0xc000 ||| (d.dev <<< 8) ||| pos),
        by simp [conf2_write, hdom, hnp, hnd, ht], rfl,
        by simp [conf2_read, hdom, hnp, hnd, hmod, hrt]⟩

theorem endianness_roundtrip_witness :
    (∃ tr, conf1_read ⟨0, 0, 1, 2⟩ 8 2 (fun _ => bytesToNat [17, 34]) =
      ReadResult.ok [17, 34] tr) ∧
    (∃ tr, conf2_read ⟨0, 1, 2, 3⟩ 9 4 (fun _ => bytesToNat [1, 2, 3, 4]) =
      ReadResult.ok [1, 2, 3, 4] tr) := by
  obtain ⟨-, hB, hC⟩ := endianness_roundtrip
  obtain ⟨cmd, ev, ev', -, -, hr1⟩ :=
    hB ⟨0, 0, 1, 2⟩ 8 2 [17, 34] rfl (by decide) (Or.inr (Or.inl rfl)) rfl (by decide)
  obtain ⟨c1, c2, ev2, ev2', -, -, hr2⟩ :=
    hC ⟨0, 1, 2, 3⟩ 9 4 [1, 2, 3, 4] rfl (by decide) (by decide)
      (Or.inr (Or.inr rfl)) rfl (by decide)
  exact ⟨⟨_, hr1⟩, ⟨_, hr2⟩⟩

theorem csOnly4 (a b : PortEvent)
    (ha : a ≠ PortEvent.lock ∧ a ≠ PortEvent.unlock)
    (hb : b ≠ PortEvent.lock ∧ b ≠ PortEvent.unlock) :
    criticalSectionOnly [PortEvent.lock, a, b, PortEvent.unlock] :=
  Or.inr ⟨[a, b], rfl, by
    intro e he
    simp only [List.mem_cons, List.not_mem_nil, or_false] at he
    rcases he with rfl | rfl <;> assumption⟩

theorem csOnly6 (a b c d : PortEvent)
    (ha : a ≠ PortEvent.lock ∧ a ≠ PortEvent.unlock)
    (hb : b ≠ PortEvent.lock ∧ b ≠ PortEvent.unlock)
    (hc : c ≠ PortEvent.lock ∧ c ≠ PortEvent.unlock)
    (hd : d ≠ PortEvent.lock ∧ d ≠ PortEvent.unlock) :
    criticalSectionOnly [PortEvent.lock, a, b, c, d, PortEvent.unlock] :=
  Or.inr ⟨[a, b, c, d], rfl, by
    intro e he
    simp only [List.mem_cons, List.not_mem_nil, or_false] at he
    rcases he with rfl | rfl | rfl | rfl <;> assumption⟩

theorem csOnly7 (a b c d e : PortEvent)
    (ha : a ≠ PortEvent.lock ∧ a ≠ PortEvent.unlock)
    (hb : b ≠ PortEvent.lock ∧ b ≠ PortEvent.unlock)
    (hc : c ≠ PortEvent.lock ∧ c ≠ PortEvent.unlock)
    (hd : d ≠ PortEvent.lock ∧ d ≠ PortEvent.unlock)
    (he : e ≠ PortEvent.lock ∧ e ≠ PortEvent.unlock) :
    criticalSectionOnly [PortEvent.lock, a, b, c, d, e, PortEvent.unlock] :=
  Or.inr ⟨[a, b, c, d, e], rfl, by
    intro x hx
    simp only [List.mem_cons, List.not_mem_nil, or_false] at hx
    rcases hx with rfl | rfl | rfl | rfl | rfl <;> assumption⟩

/-- C10: every port sequence any operation of either driver emits —
read, write or detect — is one single critical section: it is empty, or
starts with the lock, ends with the matching unlock, and contains no
other lock or unlock; in particular the address/forward-register writes
and their paired data transfer are never separated by an unlock. -/
theorem locked_critical_sections :
    (∀ d pos len ρ rbuf tr,
      conf1_read d pos len ρ = .ok rbuf tr → criticalSectionOnly tr) ∧
    (∀ d pos buf len tr,
      conf1_write d pos buf len = .ok tr → criticalSectionOnly tr) ∧
    (∀ d pos len ρ rbuf tr,
      conf2_read d pos len ρ = .ok rbuf tr → criticalSectionOnly tr) ∧
    (∀ d pos buf len tr,
      conf2_write d pos buf len = .ok tr → criticalSectionOnly tr) ∧
    (∀ r s tmp rb sread,
      criticalSectionOnly (conf1_detect r s tmp rb sread).2.2) ∧
    (∀ r s v8 va sread,
      criticalSectionOnly (conf2_detect r s v8 va sread).2.2) := by
  refine ⟨?_, ?_, ?_, ?_, ?_, ?_⟩
  · intro d pos len ρ rbuf tr h
    simp only [conf1_read] at h
    repeat' split at h
    all_goals first
      | (injection h with h1 h2
         subst h2
         exact csOnly4 _ _ (by simp) (by simp))
      | injection h
  · intro d pos buf len tr h
    simp only [conf1_write] at h
    repeat' split at h
    all_goals first
      | (injection h with h2
         subst h2
         exact csOnly4 _ _ (by simp) (by simp))
      | injection h
  · intro d pos len ρ rbuf tr h
    simp only [conf2_read] at h
    repeat' split at h
    all_goals first
      | (injection h with h1 h2
         subst h2
         exact csOnly6 _ _ _ _ (by simp) (by simp) (by simp) (by simp))
      | injection h
  · intro d pos buf len tr h
    simp only [conf2_write] at h
    repeat' split at h
    all_goals first
      | (injection h with h2
         subst h2
         exact csOnly6 _ _ _ _ (by simp) (by simp) (by simp) (by simp))
      | injection h
  · intro r s tmp rb sread
    simp only [conf1_detect]
    split
    · exact Or.inl rfl
    · exact csOnly7 _ _ _ _ _ (by simp) (by simp) (by simp) (by simp) (by simp)
  · intro r s v8 va sread
    simp only [conf2_detect]
    split
    · exact Or.inl rfl
    · dsimp only
      split
      · exact csOnly7 _ _ _ _ _ (by simp) (by simp) (by simp) (by simp) (by simp)
      · exact csOnly6 _ _ _ _ (by simp) (by simp) (by simp) (by simp)

theorem locked_critical_sections_witness :
    criticalSectionOnly [PortEvent.lock, PortEvent.outl 0x80000000 0xcf8,
      PortEvent.inb 0xcfc, PortEvent.unlock] :=
  locked_critical_sections.1 ⟨0, 0, 0, 0⟩ 0 1 (fun _ => 0) [0]
    [PortEvent.lock, PortEvent.outl 0x80000000 0xcf8,
     PortEvent.inb 0xcfc, PortEvent.unlock] (by decide)

end PciPorts
